import Mathlib

/-! Verification of the dan-lab acquisition and repair engines.

A shallow embedding, in Lean 4, of the parts of the `danlab` Python package
that the specification's claims address:

* `danlab.data_clean.reorder_columns_to_match_properties` (column reorder);
* `danlab.climate.data_integrity` (coverage ratios, fill plans, missing days);
* `danlab.api.daily_data` (paginated acquisition, flush-on-group-complete).

Data frames are modelled as a list of column names together with rows, where a
row is a total function from column names to optional cell values (`none`
models a missing/NaN cell).  Network interaction is modelled by a script of
responses the remote service returns, consumed one response per request.
-/

namespace DanLab

/-- A cell value: climate frames mix numeric data and strings. -/
inductive Val where
  | num (q : ℚ)
  | str (s : String)
deriving DecidableEq

/-- A row maps each column name to an optional cell (`none` is NaN). -/
def RowFn : Type := String → Option Val

/-- A pandas-style data frame: an ordered list of column labels plus rows.
Cells of a row outside the frame's columns are irrelevant. -/
structure DataFrame where
  cols : List String
  rows : List RowFn

/-- Embedding of `df.reindex(columns=cs)`: the result has exactly the columns `cs`, keeping
the cells of columns that already existed and filling new columns with NaN. -/
def reindexColumns (df : DataFrame) (cs : List String) : DataFrame :=
  { cols := cs
    rows := df.rows.map (fun r c => if df.cols.contains c then r c else none) }

/-- Embedding of `danlab.data_clean.reorder_columns_to_match_properties`:

    if properties is None: return df
    reordered_cols = [col for col in df.columns if col not in properties] + list(properties)
    return df.reindex(columns=reordered_cols)
-/
def reorder_columns_to_match_properties (df : DataFrame)
    (properties : Option (List String)) : DataFrame :=
  match properties with
  | none => df
  | some props =>
    let reordered_cols := (df.cols.filter (fun c => !props.contains c)) ++ props
    reindexColumns df reordered_cols

/-- The all-NaN row, used as the out-of-range default for row access. -/
def emptyRow : RowFn := fun _ => none

/-- Row access by position, defaulting to the all-NaN row out of range. -/
def DataFrame.rowAt (df : DataFrame) (i : Nat) : RowFn :=
  df.rows.getD i emptyRow

/-! ## Date helpers

Dates are modelled as integers counting calendar days, so that a difference
of dates in days and a daily `pd.date_range` become integer arithmetic. -/

/-- Embedding of `series.min()` on a date column (0 on an empty column, never used there). -/
def dateMin : List Int → Int
  | [] => 0
  | x :: xs => xs.foldl min x

/-- Embedding of `series.max()` on a date column (0 on an empty column, never used there). -/
def dateMax : List Int → Int
  | [] => 0
  | x :: xs => xs.foldl max x

/-! ## Coverage metrics (`danlab.climate.data_integrity`)

A dated frame carries the `LOCAL_DATE` column as the integer component of each
row and the remaining columns behind a row function.  The source's runtime
type checks (frame type, datetime dtype, date column present) are inherent in
the model; the column-validity check is kept explicitly. -/

/-- A frame with a date column: column labels plus (date, cells) rows. -/
structure DatedFrame where
  cols : List String
  data : List (Int × RowFn)

/-- The span `(data_in[date].max() - data_in[date].min()).days + 1`. -/
def numDays (df : DatedFrame) : Int :=
  dateMax (df.data.map Prod.fst) - dateMin (df.data.map Prod.fst) + 1

/-- Embedding of `data_in.count()[col]`: number of rows whose cell in `col` is non-null. -/
def countCol (data : List (Int × RowFn)) (c : String) : Nat :=
  (data.filter (fun r => (r.2 c).isSome)).length

/-- One column's coverage ratio: non-null count over the day span. -/
def coverageRatio (df : DatedFrame) (c : String) : ℚ :=
  (countCol df.data c : ℚ) / ((numDays df : ℤ) : ℚ)

/-- Embedding of `calc_daily_data_coverage_percentages`: after validating the
requested columns, return `count(col) / num_days` for each requested column. -/
def calc_daily_data_coverage_percentages (df : DatedFrame) (columns : List String) :
    Except String (List ℚ) :=
  if columns.all (fun c => df.cols.contains c) then
    .ok (columns.map (coverageRatio df))
  else
    .error "Columns are not found in data_in"

/-- Embedding of `data_in[columns].notnull().all(axis=1).sum()`: rows with every requested
column non-null. -/
def fullyCoveredCount (data : List (Int × RowFn)) (columns : List String) : Nat :=
  (data.filter (fun r => columns.all (fun c => (r.2 c).isSome))).length

/-- Embedding of `calc_percent_rows_fully_covered`: fully-covered row count
over the day span. -/
def calc_percent_rows_fully_covered (df : DatedFrame) (columns : List String) :
    Except String ℚ :=
  if columns.all (fun c => df.cols.contains c) then
    .ok ((fullyCoveredCount df.data columns : ℚ) / ((numDays df : ℤ) : ℚ))
  else
    .error "Columns are not found in data_in"

/-! ## Missing days (`list_missing_days`) -/

/-- Embedding of `list_missing_days`: sort the date column ascending, build the
daily range from its first to its last entry, and remove the dates present.
`pd.DatetimeIndex.difference` yields a duplicate-free collection, modelled by a
`Finset`. -/
def list_missing_days (dates : List Int) : Finset Int :=
  let dates_in := List.insertionSort (· ≤ ·) dates
  (Finset.Icc dates_in.headI dates_in.getLastI) \ dates.toFinset

/-! ## Fill plans (`fill_data_frame_by_plans`) -/

/-- A fill-plan value as the source dispatches on it at run time: a callable,
a string (parsed for a `method=` directive, otherwise used as the fill value),
or any other object used as the fill value. -/
inductive PlanObj where
  | callable (f : RowFn → Option Val)
  | strObj (s : String)
  | other (v : Val)

/-- Embedding of `plan.split('=')` and the `method` check: `some m` when the string is
exactly `<l>=<r>` with `l.strip() == 'method'`, returning the stripped `r`. -/
def parseMethodDirective (s : String) : Option String :=
  match s.splitOn "=" with
  | [l, r] => if l.trim = "method" then some r.trim else none
  | _ => none

/-- Embedding of `Series.bfill`: each null cell takes the next non-null value below it. -/
def bfillList : List (Option Val) → List (Option Val)
  | [] => []
  | x :: rest =>
    let rest_f := bfillList rest
    (x.orElse fun _ => rest_f.headD none) :: rest_f

/-- Helper for `ffillList`, carrying the last non-null value seen above. -/
def ffillGo (carry : Option Val) : List (Option Val) → List (Option Val)
  | [] => []
  | x :: rest =>
    let y := x.orElse fun _ => carry
    y :: ffillGo y rest

/-- Embedding of `Series.ffill`: each null cell takes the last non-null value above it. -/
def ffillList (xs : List (Option Val)) : List (Option Val) :=
  ffillGo none xs

/-- Map over a list with the position of each element. -/
def mapWithIndex {α : Type} (f : Nat → α → α) : Nat → List α → List α
  | _, [] => []
  | i, r :: rs => f i r :: mapWithIndex f (i + 1) rs

/-- Overwrite one cell of a row. -/
def updateCell (r : RowFn) (col : String) (v : Option Val) : RowFn :=
  fun c => if c = col then v else r c

/-- Net effect of a directional fill: the whole column is set to the filled
values, then every row outside the selection is restored to its value in the
original input `data_in`. -/
def directionalRestore (orig cur : List RowFn) (mask : Nat → Bool) (col : String)
    (filled : List (Option Val)) : List RowFn :=
  mapWithIndex (fun i r =>
    if mask i then updateCell r col (filled.getD i none)
    else updateCell r col ((orig.getD i emptyRow) col)) 0 cur

/-- One iteration of the plan loop, for column `col` and its plan: callables
are applied row-wise on the selected rows; `method=bfill` and `method=ffill`
fill the whole column and restore unselected rows from `orig`; an unknown
`method=` value raises; any other plan is a constant fill of selected rows. -/
def applyOnePlan (orig : List RowFn) (mask : Nat → Bool) (cur : List RowFn) :
    String × PlanObj → Except String (List RowFn)
  | (col, .callable f) =>
    .ok (mapWithIndex (fun i r => if mask i then updateCell r col (f r) else r) 0 cur)
  | (col, .strObj s) =>
    match parseMethodDirective s with
    | some m =>
      if m = "bfill" then
        .ok (directionalRestore orig cur mask col (bfillList (cur.map (fun r => r col))))
      else if m = "ffill" then
        .ok (directionalRestore orig cur mask col (ffillList (cur.map (fun r => r col))))
      else
        .error ("Unknown method type " ++ m)
    | none =>
      .ok (mapWithIndex (fun i r => if mask i then updateCell r col (some (Val.str s)) else r) 0 cur)
  | (col, .other v) =>
    .ok (mapWithIndex (fun i r => if mask i then updateCell r col (some v) else r) 0 cur)

/-- Embedding of `fill_data_frame_by_plans`: `None` plans return the input;
plan keys must name columns of `data_in`; then the plans are applied in order
over a copy of the rows, with `rows_to_edit` modelled as a boolean mask on row
positions. -/
def fill_data_frame_by_plans (data_in : DataFrame)
    (column_fill_plans : Option (List (String × PlanObj))) (mask : Nat → Bool) :
    Except String DataFrame :=
  match column_fill_plans with
  | none => .ok data_in
  | some plans =>
    if plans.all (fun p => data_in.cols.contains p.1) then
      (plans.foldlM (applyOnePlan data_in.rows mask) data_in.rows).map
        (fun rs => { data_in with rows := rs })
    else
      .error "keys are not found in data_in"

/-! ## Paginated acquisition (`danlab.api.daily_data`)

The remote service is modelled by a script of page responses, consumed one
entry per page request.  A run records the offsets requested and whether each
request succeeded; the probe request is counted separately.  The loop in the
source runs until `successful_iter` reaches `n_iter`, sleeping and retrying on
any `None` from `request_data_frame`; a run whose script ends before that is
reported with `completed = false` (the real loop would still be waiting). -/

/-- A scripted remote response to one page request. -/
inductive Resp (Row : Type) where
  | ok (rows : List Row)
  | timeout
  | badStatus

/-- Embedding of `request_data_frame`: a read timeout and a non-200 status are
both logged and turned into `None`; a 200 response decodes into rows. -/
def request_data_frame {Row : Type} : Resp Row → Option (List Row)
  | .ok rows => some rows
  | .timeout => none
  | .badStatus => none

/-- The page-request loop of `request_daily_data`: arguments are the remaining
script, the number of successful pages still needed, and the current offset.
Returns the pages fetched, the log of `(offset, succeeded)` per request, and
whether the loop completed. On a `None` result the offset is kept and the same
page is retried; on success the page is appended and `offset += limit`. -/
def pageLoop {Row : Type} (lim : Nat) :
    List (Resp Row) → Nat → Nat → List (List Row) × List (Nat × Bool) × Bool
  | _, 0, _ => ([], [], true)
  | [], _ + 1, _ => ([], [], false)
  | r :: rest, n + 1, off =>
    match request_data_frame r with
    | none =>
      let res := pageLoop lim rest (n + 1) off
      (res.1, (off, false) :: res.2.1, res.2.2)
    | some rows =>
      let res := pageLoop lim rest n (off + lim)
      (rows :: res.1, (off, true) :: res.2.1, res.2.2)

/-- The outcome of one `request_daily_data` acquisition. -/
structure AcqResult (Row : Type) where
  data : List Row
  pageLog : List (Nat × Bool)
  networkCalls : Nat
  completed : Bool
deriving DecidableEq

/-- Embedding of `request_daily_data`: when a property list is supplied (it
is not `None`), the properties are first validated against the queryables
service — one network GET — and the unqueryable ones dropped; the filtered
list feeds the request parameters and the final column reorder, neither of
which changes the row sequence modelled here, so its network call is the
validation's only row-stream-visible effect.  Then the match count is probed
(one more network call); on a count `<= 0` an empty frame is returned at
once; otherwise `ceil(n_matched / limit)` successful page requests run and
the pages are concatenated in request order. -/
def request_daily_data {Row : Type} (properties : Option (List String))
    (n_matched : Int) (lim : Nat) (script : List (Resp Row)) : AcqResult Row :=
  let validationCalls := match properties with
    | none => 0
    | some _ => 1
  if n_matched ≤ 0 then
    { data := [], pageLog := [], networkCalls := validationCalls + 1,
      completed := true }
  else
    let n_iter := (n_matched.toNat + lim - 1) / lim
    let res := pageLoop lim script n_iter 0
    { data := res.1.flatten
      pageLog := res.2.1
      networkCalls := validationCalls + 1 + res.2.1.length
      completed := res.2.2 }

/-- The request log of a page loop run: one `(offset, succeeded)` entry per
page request, in the order the requests were issued. -/
def pageLogOf {Row : Type} (lim : Nat) (script : List (Resp Row))
    (needed off : Nat) : List (Nat × Bool) :=
  (pageLoop lim script needed off).2.1

/-! ## Flush-on-group-complete acquisition -/

/-- One row of the climate-daily CSV stream, with the columns the flushing
path inspects: the grouping key, the station name, and the rest of the row. -/
structure CsvRow where
  climate_id : String
  station_name : String
  payload : Nat
deriving DecidableEq, Inhabited

/-- Embedding of `pd.Series.unique`: distinct values in order of first appearance. -/
def uniqueInOrder : List String → List String
  | [] => []
  | x :: xs => x :: (uniqueInOrder xs).filter (fun y => y != x)

/-- Embedding of `station_name.replace(' ', '_')` for the single-character pattern the
source uses: substitute each space character by an underscore. -/
def underscoreSpaces (s : String) : String :=
  String.mk (s.toList.map (fun c => if c = ' ' then '_' else c))

/-- The file key `write_daily_data_to_csv` derives for a group: the station
name with spaces replaced by underscores, joined with the climate id. -/
def csvFileKey (next_id : String) (rows : List CsvRow) : String :=
  underscoreSpaces rows.headI.station_name ++ "_" ++ next_id

/-- The loop body of `write_full_set_to_csv` over all-but-the-last distinct
climate id: write that id's rows and drop them from the (function-local)
frame. -/
def flushGo : List String → List CsvRow →
    List (String × List CsvRow) × List CsvRow
  | [], d => ([], d)
  | next_id :: rest, d =>
    let next_id_data := d.filter (fun r => r.climate_id == next_id)
    let d2 := d.filter (fun r => r.climate_id != next_id)
    let res := flushGo rest d2
    ((csvFileKey next_id next_id_data, next_id_data) :: res.1, res.2)

/-- Embedding of `write_full_set_to_csv`: for every distinct climate id but
the last, write that id's rows to a CSV and drop them from the local frame.
The first component is the writes performed; the second is the value of the
local variable `daily_data` when the function returns.  In the source
`daily_data = daily_data.drop(...)` rebinds the local name only — `drop`
returns a copy — so the caller's frame is unaffected by the second component
and the function's only effect visible to the caller is the writes. -/
def write_full_set_to_csv (daily_data : List CsvRow) :
    List (String × List CsvRow) × List CsvRow :=
  let curr_ids := uniqueInOrder (daily_data.map (fun r => r.climate_id))
  flushGo curr_ids.dropLast daily_data

/-- A network request observable in the trace of the flushing acquisition. -/
inductive NetEvent where
  | queryables
  | probe
  | page (offset : Nat)
deriving DecidableEq

/-- Embedding of `check_unqueryable_properties`: issues one queryables network
request (the `queryables` event recorded by the caller model) and returns the
properties that the service's queryable names do not include. -/
def check_unqueryable_properties (queryableNames properties : List String) :
    List String :=
  properties.filter (fun p => !queryableNames.contains p)

/-- The properties `request_and_write_csv_for_all_daily_data` requires in
order to name output files. -/
def required_properties : List String :=
  ["CLIMATE_IDENTIFIER", "STATION_NAME"]

/-- The caller's property list after the unqueryable ones are dropped: kept
as-is when the unqueryable list is empty, filtered otherwise. -/
def filteredProperties (properties queryableNames : List String) : List String :=
  let unq := check_unqueryable_properties queryableNames properties
  if unq.isEmpty then properties
  else properties.filter (fun p => !unq.contains p)

/-- The check `all(req in properties for req in required_properties)` after the
unqueryable filtering. -/
def hasRequiredNamingProperties (properties queryableNames : List String) : Bool :=
  required_properties.all (fun req =>
    (filteredProperties properties queryableNames).contains req)

/-- The outcome of one flushing acquisition: the engine's accumulated frame at
the end of the page loop, the per-page flush writes in order, the final
per-group writes, and the page-request log. -/
structure WriteRunResult where
  accumulated : List CsvRow
  flushWrites : List (String × List CsvRow)
  finalWrites : List (String × List CsvRow)
  pageLog : List (Nat × Bool)
  completed : Bool

/-- The page loop of `request_and_write_csv_for_all_daily_data`: like
`pageLoop`, but each successful page is concatenated onto the accumulated
frame and `write_full_set_to_csv(all_daily_data, out_dir)` is then called for
its writes.  The callee's dropped frame is discarded — the call returns
`None` in the source and the local rebinding inside it does not reach the
caller — so the recursion continues with the full accumulated frame. -/
def acquireLoop (lim : Nat) :
    List (Resp CsvRow) → Nat → Nat → List CsvRow → List (String × List CsvRow) →
    List CsvRow × List (String × List CsvRow) × List (Nat × Bool) × Bool
  | _, 0, _, acc, ws => (acc, ws, [], true)
  | [], _ + 1, _, acc, ws => (acc, ws, [], false)
  | r :: rest, n + 1, off, acc, ws =>
    match request_data_frame r with
    | none =>
      let res := acquireLoop lim rest (n + 1) off acc ws
      (res.1, res.2.1, (off, false) :: res.2.2.1, res.2.2.2)
    | some rows =>
      let acc2 := acc ++ rows
      let flushed := write_full_set_to_csv acc2
      let res := acquireLoop lim rest n (off + lim) acc2 (ws ++ flushed.1)
      (res.1, res.2.1, (off, true) :: res.2.2.1, res.2.2.2)

/-- The write loop after the pages: one CSV per distinct climate id of the
accumulated frame. -/
def finalWritesOf (acc : List CsvRow) : List (String × List CsvRow) :=
  (uniqueInOrder (acc.map (fun r => r.climate_id))).map (fun next_id =>
    let sub := acc.filter (fun r => r.climate_id == next_id)
    (csvFileKey next_id sub, sub))

/-- Embedding of `request_and_write_csv_for_all_daily_data`: validate the
properties against the queryables service (one network request), raise if the
properties needed for file naming are absent from the filtered list, then
probe the match count and run the page loop with per-page flushes, writing
every remaining group at the end unless nothing accumulated.  The second
component is the trace of network requests issued, in order. -/
def request_and_write_csv_for_all_daily_data (properties queryableNames : List String)
    (n_matched : Int) (lim : Nat) (script : List (Resp CsvRow)) :
    Except String WriteRunResult × List NetEvent :=
  if !hasRequiredNamingProperties properties queryableNames then
    (.error "The following properties are needed to name the CSV properly",
     [.queryables])
  else
    let n_iter := if n_matched ≤ 0 then 0 else (n_matched.toNat + lim - 1) / lim
    let res := acquireLoop lim script n_iter 0 [] []
    let fin := if res.1.isEmpty then [] else finalWritesOf res.1
    (.ok { accumulated := res.1
           flushWrites := res.2.1
           finalWrites := fin
           pageLog := res.2.2.1
           completed := res.2.2.2 },
     [.queryables, .probe] ++ res.2.2.1.map (fun e => NetEvent.page e.1))

/-! ## Concrete fixtures used by witnesses and counterexamples -/

/-- A script over natural-number rows: a timeout, then a one-row page. -/
def timeoutScript : List (Resp Nat) := [.timeout, .ok [5]]

/-- The empty script over natural-number rows. -/
def emptyScript : List (Resp Nat) := []

/-- A row of group `A`. -/
def rowA : CsvRow := { climate_id := "A", station_name := "S A", payload := 1 }

/-- A row of group `B`. -/
def rowB : CsvRow := { climate_id := "B", station_name := "S B", payload := 2 }

/-- A row with every cell present. -/
def rowFull : RowFn := fun _ => some (.num 1)

/-- Two rows landing on the same calendar day. -/
def dupFrame : DatedFrame := { cols := ["x"], data := [(0, rowFull), (0, rowFull)] }

/-- One fully-populated row on each day of a two-day span. -/
def goodFrame : DatedFrame := { cols := ["x"], data := [(0, rowFull), (1, rowFull)] }

/-- A two-row frame with a null in each row. -/
def dfC7 : DataFrame :=
  { cols := ["A", "B"]
    rows := [fun c => if c = "A" then none else some (.num 5),
             fun c => if c = "A" then some (.num 7) else none] }

/-- A constant fill of column `B`. -/
def plansC7 : List (String × PlanObj) := [("B", .other (.num 9))]

/-- Select only row 0 for editing. -/
def maskC7 : Nat → Bool := fun i => i == 0

/-- The frame the fill returns on the `dfC7` fixture. -/
def outC7 : DataFrame :=
  match fill_data_frame_by_plans dfC7 (some plansC7) maskC7 with
  | .ok f => f
  | .error _ => { cols := [], rows := [] }

/-- A one-row frame over columns `A` and `B`. -/
def row10 : RowFn := fun c => if c = "A" then some (.num 1) else some (.num 2)

/-- A concrete two-column frame. -/
def df10 : DataFrame := { cols := ["A", "B"], rows := [row10] }

/-! # Theorems -/

/-- Elements selected by an in-range `getD` belong to the list. -/
theorem getD_mem_of_lt {α : Type} (l : List α) (i : Nat) (d : α)
    (h : i < l.length) : l.getD i d ∈ l := by
  induction l generalizing i with
  | nil => simp at h
  | cons a t ih =>
    cases i with
    | zero => simp
    | succ j =>
      simp only [List.getD_cons_succ]
      exact List.mem_cons_of_mem a (ih j (by simpa using h))

/-- Every nonempty page log starts at the offset the loop was entered with. -/
theorem pageLog_head_offset {Row : Type} (lim : Nat) (script : List (Resp Row))
    (needed off : Nat) (h : pageLogOf lim script needed off ≠ []) :
    ((pageLogOf lim script needed off).getD 0 (0, true)).1 = off := by
  cases script with
  | nil =>
    cases needed with
    | zero => simp [pageLogOf, pageLoop] at h
    | succ n => simp [pageLogOf, pageLoop] at h
  | cons r rest =>
    cases needed with
    | zero => simp [pageLogOf, pageLoop] at h
    | succ n =>
      cases r with
      | ok rows => simp [pageLogOf, pageLoop, request_data_frame]
      | timeout => simp [pageLogOf, pageLoop, request_data_frame]
      | badStatus => simp [pageLogOf, pageLoop, request_data_frame]

/-- C4 counterexample: with a supplied property list and a probed match count
of 0, the engine does return the empty dataset with zero page-fetch requests,
but it has issued two network calls — the queryables validation and the
probe — not exactly one. -/
theorem claim_C4_counterexample :
    (request_daily_data (some ["LOCAL_DATE"]) 0 10000 emptyScript).networkCalls = 2 ∧
    ¬ (request_daily_data (some ["LOCAL_DATE"]) 0 10000 emptyScript).networkCalls = 1 ∧
    (request_daily_data (some ["LOCAL_DATE"]) 0 10000 emptyScript).data = [] ∧
    (request_daily_data (some ["LOCAL_DATE"]) 0 10000 emptyScript).pageLog = [] :=
  ⟨rfl, by decide, rfl, rfl⟩

/-- C4 amended: on a probed match count `<= 0` the engine returns the empty
dataset immediately with zero page-fetch requests; besides the probe, the
only other network call is the single queryables validation, issued exactly
when a property list was supplied. -/
theorem claim_C4_amended_zero_match_calls {Row : Type}
    (properties : Option (List String)) (n_matched : Int) (lim : Nat)
    (script : List (Resp Row)) (h : n_matched ≤ 0) :
    request_daily_data properties n_matched lim script =
      { data := [], pageLog := [],
        networkCalls := (match properties with | none => 0 | some _ => 1) + 1,
        completed := true } := by
  cases properties <;> simp [request_daily_data, h]

/-- Witness for the amended C4 at match count 0, both with and without a
property list. -/
theorem claim_C4_amended_zero_match_calls_witness :
    (0 : Int) ≤ 0 ∧
      request_daily_data (some ["LOCAL_DATE"]) 0 10000 emptyScript =
        { data := [], pageLog := [], networkCalls := 2, completed := true } ∧
      request_daily_data none 0 10000 emptyScript =
        { data := [], pageLog := [], networkCalls := 1, completed := true } :=
  ⟨le_refl 0,
   claim_C4_amended_zero_match_calls (some ["LOCAL_DATE"]) 0 10000 emptyScript
     (le_refl 0),
   claim_C4_amended_zero_match_calls none 0 10000 emptyScript (le_refl 0)⟩

/-- C5: with a probed match count of 2 and page limit 1, the engine issues
exactly two successful page requests, at offsets 0 then 1, and returns the two
rows concatenated in request order. -/
theorem claim_C5_two_pages_offsets_and_order (a b : Nat) :
    request_daily_data none 2 1 ([.ok [a], .ok [b]] : List (Resp Nat)) =
      { data := [a, b], pageLog := [(0, true), (1, true)],
        networkCalls := 3, completed := true } :=
  rfl

/-- C1 counterexample: on a transport-level read timeout at offset 0 the
engine does not propagate the failure — it issues a further page request at
the very offset that timed out, and the acquisition then completes with the
retried page's data. -/
theorem claim_C1_counterexample :
    (request_daily_data none 1 10000 timeoutScript).pageLog
        = [(0, false), (0, true)] ∧
      (request_daily_data none 1 10000 timeoutScript).completed = true ∧
      (request_daily_data none 1 10000 timeoutScript).data = [5] :=
  ⟨rfl, rfl, rfl⟩

/-- C1 amended: after a failed page request (read timeout or bad status) the
engine retries the same offset with its next request rather than propagating
the failure, and after a successful request it advances the offset by the page
limit. -/
theorem claim_C1_amended_failed_page_retried_same_offset {Row : Type} (lim : Nat)
    (script : List (Resp Row)) (needed off i : Nat)
    (hi : i + 1 < (pageLogOf lim script needed off).length) :
    (((pageLogOf lim script needed off).getD i (0, true)).2 = false →
      ((pageLogOf lim script needed off).getD (i + 1) (0, true)).1 =
        ((pageLogOf lim script needed off).getD i (0, true)).1) ∧
    (((pageLogOf lim script needed off).getD i (0, true)).2 = true →
      ((pageLogOf lim script needed off).getD (i + 1) (0, true)).1 =
        ((pageLogOf lim script needed off).getD i (0, true)).1 + lim) := by
  induction script generalizing needed off i with
  | nil =>
    cases needed with
    | zero => simp [pageLogOf, pageLoop] at hi
    | succ n => simp [pageLogOf, pageLoop] at hi
  | cons r rest ih =>
    cases needed with
    | zero => simp [pageLogOf, pageLoop] at hi
    | succ n =>
      cases r with
      | ok rows =>
        cases i with
        | zero =>
          refine ⟨fun hfail => ?_, fun _ => ?_⟩
          · simp [pageLogOf, pageLoop, request_data_frame] at hfail
          · have hne : pageLogOf lim rest n (off + lim) ≠ [] := by
              intro hemp
              rw [pageLogOf, pageLoop] at hi
              simp only [request_data_frame] at hi
              have : (pageLogOf lim rest n (off + lim)).length = 0 := by
                simp [hemp]
              simp only [pageLogOf] at this
              simp [List.length_cons, this] at hi
            have hh := pageLog_head_offset lim rest n (off + lim) hne
            simpa [pageLogOf, pageLoop, request_data_frame] using hh
        | succ j =>
          have hi2 : j + 1 < (pageLogOf lim rest n (off + lim)).length := by
            simpa [pageLogOf, pageLoop, request_data_frame] using hi
          have hrec := ih n (off + lim) j hi2
          simpa [pageLogOf, pageLoop, request_data_frame] using hrec
      | timeout =>
        cases i with
        | zero =>
          refine ⟨fun _ => ?_, fun hsucc => ?_⟩
          · have hne : pageLogOf lim rest (n + 1) off ≠ [] := by
              intro hemp
              rw [pageLogOf, pageLoop] at hi
              simp only [request_data_frame] at hi
              have : (pageLogOf lim rest (n + 1) off).length = 0 := by
                simp [hemp]
              simp only [pageLogOf] at this
              simp [List.length_cons, this] at hi
            have hh := pageLog_head_offset lim rest (n + 1) off hne
            simpa [pageLogOf, pageLoop, request_data_frame] using hh
          · simp [pageLogOf, pageLoop, request_data_frame] at hsucc
        | succ j =>
          have hi2 : j + 1 < (pageLogOf lim rest (n + 1) off).length := by
            simpa [pageLogOf, pageLoop, request_data_frame] using hi
          have hrec := ih (n + 1) off j hi2
          simpa [pageLogOf, pageLoop, request_data_frame] using hrec
      | badStatus =>
        cases i with
        | zero =>
          refine ⟨fun _ => ?_, fun hsucc => ?_⟩
          · have hne : pageLogOf lim rest (n + 1) off ≠ [] := by
              intro hemp
              rw [pageLogOf, pageLoop] at hi
              simp only [request_data_frame] at hi
              have : (pageLogOf lim rest (n + 1) off).length = 0 := by
                simp [hemp]
              simp only [pageLogOf] at this
              simp [List.length_cons, this] at hi
            have hh := pageLog_head_offset lim rest (n + 1) off hne
            simpa [pageLogOf, pageLoop, request_data_frame] using hh
          · simp [pageLogOf, pageLoop, request_data_frame] at hsucc
        | succ j =>
          have hi2 : j + 1 < (pageLogOf lim rest (n + 1) off).length := by
            simpa [pageLogOf, pageLoop, request_data_frame] using hi
          have hrec := ih (n + 1) off j hi2
          simpa [pageLogOf, pageLoop, request_data_frame] using hrec

/-- Witness for the amended C1 on a timed-out first request: the second
request targets the same offset 0. -/
theorem claim_C1_amended_failed_page_retried_same_offset_witness :
    0 + 1 < (pageLogOf 10000 timeoutScript 1 0).length ∧
      (((pageLogOf 10000 timeoutScript 1 0).getD 0 (0, true)).2 = false →
        ((pageLogOf 10000 timeoutScript 1 0).getD 1 (0, true)).1 =
          ((pageLogOf 10000 timeoutScript 1 0).getD 0 (0, true)).1) ∧
      (((pageLogOf 10000 timeoutScript 1 0).getD 0 (0, true)).2 = true →
        ((pageLogOf 10000 timeoutScript 1 0).getD 1 (0, true)).1 =
          ((pageLogOf 10000 timeoutScript 1 0).getD 0 (0, true)).1 + 10000) :=
  ⟨by decide,
   claim_C1_amended_failed_page_retried_same_offset 10000 timeoutScript 1 0 0 (by decide)⟩

/-- C2 (code evaluation at the failing input): with two groups delivered over
two pages, the page-2 flush step writes group `A` to storage, yet the
engine's Accumulated Dataset still holds the `A` row alongside the `B` row —
the drop inside `write_full_set_to_csv` rebinds a local name only, so the
accumulated frame does not shrink to the last group. -/
theorem claim_C2_flushed_group_not_dropped :
    (request_and_write_csv_for_all_daily_data ["CLIMATE_IDENTIFIER", "STATION_NAME"]
        ["CLIMATE_IDENTIFIER", "STATION_NAME"] 2 1 [.ok [rowA], .ok [rowB]]).1.toOption =
      some { accumulated := [rowA, rowB]
             flushWrites := [("S_A_A", [rowA])]
             finalWrites := [("S_A_A", [rowA]), ("S_B_B", [rowB])]
             pageLog := [(0, true), (1, true)]
             completed := true } ∧
    rowA.climate_id ≠ rowB.climate_id :=
  ⟨rfl, by decide⟩

/-- C3 counterexample: a flushing acquisition whose property list lacks both
naming properties does raise the configuration error, but only after the
queryables-validation network request has been issued — the raise is not
before any network request. -/
theorem claim_C3_counterexample :
    (request_and_write_csv_for_all_daily_data ["LOCAL_DATE"] ["LOCAL_DATE"]
        5 10000 []).1.toOption = none ∧
    (request_and_write_csv_for_all_daily_data ["LOCAL_DATE"] ["LOCAL_DATE"]
        5 10000 []).2 = [NetEvent.queryables] :=
  ⟨rfl, rfl⟩

/-- C3 amended: whenever the filtered property list lacks a required naming
property, the flushing acquisition raises the configuration error before
issuing the match-count probe or any page request; the single
queryables-validation request is the only network request issued. -/
theorem claim_C3_amended_config_error_before_any_item_request
    (properties queryableNames : List String) (n_matched : Int) (lim : Nat)
    (script : List (Resp CsvRow))
    (h : hasRequiredNamingProperties properties queryableNames = false) :
    (request_and_write_csv_for_all_daily_data properties queryableNames
        n_matched lim script).1.toOption = none ∧
    (request_and_write_csv_for_all_daily_data properties queryableNames
        n_matched lim script).2 = [NetEvent.queryables] := by
  simp [request_and_write_csv_for_all_daily_data, h, Except.toOption]

/-- Witness for the amended C3 at a concrete property list lacking both
required names. -/
theorem claim_C3_amended_config_error_before_any_item_request_witness :
    hasRequiredNamingProperties ["LOCAL_DATE"] ["LOCAL_DATE"] = false ∧
    ((request_and_write_csv_for_all_daily_data ["LOCAL_DATE"] ["LOCAL_DATE"]
        7 100 []).1.toOption = none ∧
     (request_and_write_csv_for_all_daily_data ["LOCAL_DATE"] ["LOCAL_DATE"]
        7 100 []).2 = [NetEvent.queryables]) :=
  ⟨by decide,
   claim_C3_amended_config_error_before_any_item_request
     ["LOCAL_DATE"] ["LOCAL_DATE"] 7 100 [] (by decide)⟩

/-- C8: applying the column reorder twice with the same property list yields
the same column order as applying it once. -/
theorem claim_C8_reorder_idempotent_on_columns (df : DataFrame) (ps : List String) :
    (reorder_columns_to_match_properties
        (reorder_columns_to_match_properties df (some ps)) (some ps)).cols =
      (reorder_columns_to_match_properties df (some ps)).cols := by
  simp only [reorder_columns_to_match_properties, reindexColumns]
  rw [List.filter_append]
  have h1 : (df.cols.filter (fun c => !ps.contains c)).filter (fun c => !ps.contains c)
      = df.cols.filter (fun c => !ps.contains c) := by
    rw [List.filter_filter]
    apply List.filter_congr
    intro a _
    exact Bool.and_self _
  have h2 : ps.filter (fun c => !ps.contains c) = [] := by
    refine List.filter_eq_nil_iff.mpr ?_
    intro a ha
    simp [ha]
  rw [h1, h2, List.append_nil]

/-- C10: the column reorder keeps the row count, keeps every existing column,
and turns each requested property absent from the frame into a column of the
output — neither skipped nor an error — whose cells are all missing. -/
theorem claim_C10_reorder_adds_missing_properties_as_null_columns
    (df : DataFrame) (ps : List String) :
    (reorder_columns_to_match_properties df (some ps)).rows.length = df.rows.length ∧
    (∀ c ∈ df.cols, c ∈ (reorder_columns_to_match_properties df (some ps)).cols) ∧
    (∀ c ∈ ps, c ∉ df.cols →
      c ∈ (reorder_columns_to_match_properties df (some ps)).cols ∧
      ∀ i < (reorder_columns_to_match_properties df (some ps)).rows.length,
        (reorder_columns_to_match_properties df (some ps)).rowAt i c = none) := by
  refine ⟨?_, ?_, ?_⟩
  · simp [reorder_columns_to_match_properties, reindexColumns]
  · intro c hc
    simp only [reorder_columns_to_match_properties, reindexColumns, List.mem_append]
    by_cases h : c ∈ ps
    · exact Or.inr h
    · refine Or.inl ?_
      refine List.mem_filter.mpr ⟨hc, ?_⟩
      simp [h]
  · intro c hc hcnot
    constructor
    · simp only [reorder_columns_to_match_properties, reindexColumns, List.mem_append]
      exact Or.inr hc
    · intro i hi
      simp only [DataFrame.rowAt, reorder_columns_to_match_properties, reindexColumns]
      have hmem : (reorder_columns_to_match_properties df (some ps)).rows.getD i emptyRow ∈
          (reorder_columns_to_match_properties df (some ps)).rows :=
        getD_mem_of_lt _ i _ hi
      simp only [reorder_columns_to_match_properties, reindexColumns, List.mem_map] at hmem
      obtain ⟨r0, _hr0, heq⟩ := hmem
      rw [← heq]
      simp [hcnot]

/-- Witness for C10 on a concrete frame and property list containing the new
column name `NEW`. -/
theorem claim_C10_reorder_adds_missing_properties_as_null_columns_witness :
    (reorder_columns_to_match_properties df10 (some ["B", "NEW"])).rows.length =
        df10.rows.length ∧
    "A" ∈ (reorder_columns_to_match_properties df10 (some ["B", "NEW"])).cols ∧
    "NEW" ∈ (reorder_columns_to_match_properties df10 (some ["B", "NEW"])).cols ∧
    (reorder_columns_to_match_properties df10 (some ["B", "NEW"])).rowAt 0 "NEW" = none :=
  ⟨(claim_C10_reorder_adds_missing_properties_as_null_columns df10 ["B", "NEW"]).1,
   (claim_C10_reorder_adds_missing_properties_as_null_columns df10 ["B", "NEW"]).2.1
     "A" (by decide),
   ((claim_C10_reorder_adds_missing_properties_as_null_columns df10 ["B", "NEW"]).2.2
     "NEW" (by decide) (by decide)).1,
   ((claim_C10_reorder_adds_missing_properties_as_null_columns df10 ["B", "NEW"]).2.2
     "NEW" (by decide) (by decide)).2 0 (by decide)⟩

/-- In an ascending-sorted list the first element bounds every member below. -/
theorem sorted_headI_le (l : List Int) (hs : l.Sorted (· ≤ ·)) :
    ∀ x ∈ l, l.headI ≤ x := by
  cases l with
  | nil => intro x hx; simp at hx
  | cons a t =>
    intro x hx
    rcases List.mem_cons.mp hx with rfl | hx2
    · simp
    · simpa using (List.sorted_cons.mp hs).1 x hx2

/-- In an ascending-sorted list the last element bounds every member above. -/
theorem sorted_le_getLastI (l : List Int) (hs : l.Sorted (· ≤ ·)) :
    ∀ x ∈ l, x ≤ l.getLastI := by
  induction l with
  | nil => intro x hx; simp at hx
  | cons a t ih =>
    intro x hx
    cases t with
    | nil =>
      rcases List.mem_cons.mp hx with rfl | h2
      · simp [List.getLastI]
      · simp at h2
    | cons b t2 =>
      have hs2 : (b :: t2).Sorted (· ≤ ·) := (List.sorted_cons.mp hs).2
      have hgl : (a :: b :: t2).getLastI = (b :: t2).getLastI := by
        rw [List.getLastI_eq_getLast?, List.getLastI_eq_getLast?,
          List.getLast?_cons_cons]
      rcases List.mem_cons.mp hx with rfl | h2
      · have hab : x ≤ b := (List.sorted_cons.mp hs).1 b (by simp)
        rw [hgl]
        exact le_trans hab (ih hs2 b (by simp))
      · rw [hgl]
        exact ih hs2 x h2

/-- C9: for a nonempty date column, the missing days and the distinct days
present partition the inclusive day span between the column's first and last
sorted entries. -/
theorem claim_C9_missing_days_partition_span (dates : List Int) (h : dates ≠ []) :
    (list_missing_days dates).card + dates.toFinset.card =
      ((List.insertionSort (· ≤ ·) dates).getLastI -
        (List.insertionSort (· ≤ ·) dates).headI + 1).toNat := by
  have hperm : List.Perm (List.insertionSort (· ≤ ·) dates) dates :=
    List.perm_insertionSort _ _
  have hsorted : (List.insertionSort (· ≤ ·) dates).Sorted (· ≤ ·) :=
    List.sorted_insertionSort _ _
  have hsub : dates.toFinset ⊆
      Finset.Icc (List.insertionSort (· ≤ ·) dates).headI
        (List.insertionSort (· ≤ ·) dates).getLastI := by
    intro x hx
    rw [List.mem_toFinset] at hx
    have hxs : x ∈ List.insertionSort (· ≤ ·) dates := hperm.mem_iff.mpr hx
    exact Finset.mem_Icc.mpr
      ⟨sorted_headI_le _ hsorted x hxs, sorted_le_getLastI _ hsorted x hxs⟩
  have hcard : (list_missing_days dates).card =
      (Finset.Icc (List.insertionSort (· ≤ ·) dates).headI
        (List.insertionSort (· ≤ ·) dates).getLastI).card - dates.toFinset.card := by
    simp only [list_missing_days]
    exact Finset.card_sdiff hsub
  rw [hcard, Nat.sub_add_cancel (Finset.card_le_card hsub), Int.card_Icc]
  congr 1
  ring

/-- Witness for C9 on the dates 3 and 1 with day 2 missing. -/
theorem claim_C9_missing_days_partition_span_witness :
    ([3, 1] : List Int) ≠ [] ∧
      (list_missing_days [3, 1]).card + ([3, 1] : List Int).toFinset.card =
        ((List.insertionSort (· ≤ ·) ([3, 1] : List Int)).getLastI -
          (List.insertionSort (· ≤ ·) ([3, 1] : List Int)).headI + 1).toNat :=
  ⟨by decide, claim_C9_missing_days_partition_span [3, 1] (by decide)⟩

/-- Folding `min` only lowers the accumulator. -/
theorem foldl_min_le_init (l : List Int) (a : Int) : l.foldl min a ≤ a := by
  induction l generalizing a with
  | nil => simp
  | cons x t ih => exact le_trans (ih (min a x)) (min_le_left a x)

/-- Folding `min` bounds every list member below. -/
theorem foldl_min_le_mem (l : List Int) (a : Int) : ∀ x ∈ l, l.foldl min a ≤ x := by
  induction l generalizing a with
  | nil => intro x hx; simp at hx
  | cons y t ih =>
    intro x hx
    rcases List.mem_cons.mp hx with rfl | h2
    · exact le_trans (foldl_min_le_init t (min a x)) (min_le_right a x)
    · exact ih (min a y) x h2

/-- The value `series.min()` is below every entry of the column. -/
theorem dateMin_le_mem (l : List Int) : ∀ x ∈ l, dateMin l ≤ x := by
  cases l with
  | nil => intro x hx; simp at hx
  | cons y t =>
    intro x hx
    rcases List.mem_cons.mp hx with rfl | h2
    · exact foldl_min_le_init t x
    · exact foldl_min_le_mem t y x h2

/-- Folding `max` only raises the accumulator. -/
theorem le_foldl_max_init (l : List Int) (a : Int) : a ≤ l.foldl max a := by
  induction l generalizing a with
  | nil => simp
  | cons x t ih => exact le_trans (le_max_left a x) (ih (max a x))

/-- Folding `max` bounds every list member above. -/
theorem le_foldl_max_mem (l : List Int) (a : Int) : ∀ x ∈ l, x ≤ l.foldl max a := by
  induction l generalizing a with
  | nil => intro x hx; simp at hx
  | cons y t ih =>
    intro x hx
    rcases List.mem_cons.mp hx with rfl | h2
    · exact le_trans (le_max_right a x) (le_foldl_max_init t (max a x))
    · exact ih (max a y) x h2

/-- The value `series.max()` is above every entry of the column. -/
theorem le_dateMax_mem (l : List Int) : ∀ x ∈ l, x ≤ dateMax l := by
  cases l with
  | nil => intro x hx; simp at hx
  | cons y t =>
    intro x hx
    rcases List.mem_cons.mp hx with rfl | h2
    · exact le_foldl_max_init t x
    · exact le_foldl_max_mem t y x h2

/-- A nonempty frame spans at least one day. -/
theorem numDays_pos (df : DatedFrame) (hne : df.data ≠ []) : 0 < numDays df := by
  obtain ⟨r, hr⟩ := List.exists_mem_of_ne_nil df.data hne
  have h1 := dateMin_le_mem (df.data.map Prod.fst) r.1 (List.mem_map_of_mem Prod.fst hr)
  have h2 := le_dateMax_mem (df.data.map Prod.fst) r.1 (List.mem_map_of_mem Prod.fst hr)
  unfold numDays
  omega

/-- Every date of the column lies in its min-max day span. -/
theorem toFinset_subset_Icc (l : List Int) :
    l.toFinset ⊆ Finset.Icc (dateMin l) (dateMax l) := by
  intro x hx
  rw [List.mem_toFinset] at hx
  exact Finset.mem_Icc.mpr ⟨dateMin_le_mem l x hx, le_dateMax_mem l x hx⟩

/-- With pairwise distinct dates the row count cannot exceed the day span. -/
theorem length_le_numDays (df : DatedFrame)
    (hnodup : (df.data.map Prod.fst).Nodup) :
    df.data.length ≤ (numDays df).toNat := by
  have hca : (df.data.map Prod.fst).toFinset.card = (df.data.map Prod.fst).length :=
    List.toFinset_card_of_nodup hnodup
  have hle := Finset.card_le_card (toFinset_subset_Icc (df.data.map Prod.fst))
  rw [hca, List.length_map, Int.card_Icc] at hle
  unfold numDays
  omega

/-- A count of at most the row count gives a ratio in the unit interval. -/
theorem ratio_in_unit (df : DatedFrame) (hne : df.data ≠ [])
    (hnodup : (df.data.map Prod.fst).Nodup) (k : Nat) (hk : k ≤ df.data.length) :
    0 ≤ (k : ℚ) / ((numDays df : ℤ) : ℚ) ∧ (k : ℚ) / ((numDays df : ℤ) : ℚ) ≤ 1 := by
  have hpos : 0 < numDays df := numDays_pos df hne
  have hposq : (0 : ℚ) < ((numDays df : ℤ) : ℚ) := by exact_mod_cast hpos
  constructor
  · positivity
  · rw [div_le_one hposq]
    have hk2 : (k : ℤ) ≤ numDays df := by
      have := le_trans hk (length_le_numDays df hnodup)
      omega
    exact_mod_cast hk2

/-- A count equal to the day span gives ratio exactly one. -/
theorem ratio_eq_one (df : DatedFrame) (hne : df.data ≠ []) (k : Nat)
    (hkeq : (k : ℤ) = numDays df) :
    (k : ℚ) / ((numDays df : ℤ) : ℚ) = 1 := by
  have hpos : 0 < numDays df := numDays_pos df hne
  have hzero : ((numDays df : ℤ) : ℚ) ≠ 0 := by exact_mod_cast hpos.ne'
  rw [div_eq_one_iff_eq hzero]
  exact_mod_cast hkeq

/-- One row on each day of the span makes row count and day span agree. -/
theorem length_eq_numDays_of_complete (df : DatedFrame) (hne : df.data ≠ [])
    (hnodup : (df.data.map Prod.fst).Nodup)
    (hcomp : ∀ d ∈ Finset.Icc (dateMin (df.data.map Prod.fst))
        (dateMax (df.data.map Prod.fst)), d ∈ df.data.map Prod.fst) :
    (df.data.length : ℤ) = numDays df := by
  have hsup : Finset.Icc (dateMin (df.data.map Prod.fst))
      (dateMax (df.data.map Prod.fst)) ⊆ (df.data.map Prod.fst).toFinset :=
    fun d hd => List.mem_toFinset.mpr (hcomp d hd)
  have hset : (df.data.map Prod.fst).toFinset =
      Finset.Icc (dateMin (df.data.map Prod.fst)) (dateMax (df.data.map Prod.fst)) :=
    Finset.Subset.antisymm (toFinset_subset_Icc _) hsup
  have hca : (df.data.map Prod.fst).toFinset.card = (df.data.map Prod.fst).length :=
    List.toFinset_card_of_nodup hnodup
  rw [hset, Int.card_Icc] at hca
  rw [List.length_map] at hca
  have hpos : 0 < numDays df := numDays_pos df hne
  unfold numDays at hpos ⊢
  omega

/-- C6 counterexample: a frame with two rows on the same calendar day has
per-column coverage ratio 2 and fully-covered-row ratio 2, outside [0, 1]. -/
theorem claim_C6_counterexample :
    (calc_daily_data_coverage_percentages dupFrame ["x"]).toOption = some [2] ∧
      (calc_percent_rows_fully_covered dupFrame ["x"]).toOption = some 2 := by
  have h1 : countCol dupFrame.data "x" = 2 := rfl
  have h2 : numDays dupFrame = 1 := rfl
  have h3 : fullyCoveredCount dupFrame.data ["x"] = 2 := rfl
  constructor
  · unfold calc_daily_data_coverage_percentages
    rw [if_pos (by decide)]
    simp only [Except.toOption, List.map_cons, List.map_nil, Option.some.injEq]
    have hcov : coverageRatio dupFrame "x" = 2 := by
      unfold coverageRatio
      rw [h1, h2]
      norm_num
    rw [hcov]
  · unfold calc_percent_rows_fully_covered
    rw [if_pos (by decide)]
    simp only [Except.toOption, Option.some.injEq]
    rw [h3, h2]
    norm_num

/-- C6 amended: for a nonempty frame whose rows carry pairwise distinct dates
and a valid column selection, every per-column coverage ratio and the
fully-covered-row ratio lie in [0, 1]; and when every day of the span has a
row and the selected columns have no null cells, the ratios all equal 1. -/
theorem claim_C6_amended_coverage_ratios (df : DatedFrame) (columns : List String)
    (hne : df.data ≠ []) (hnodup : (df.data.map Prod.fst).Nodup)
    (hvalid : columns.all (fun c => df.cols.contains c) = true) :
    calc_daily_data_coverage_percentages df columns =
      .ok (columns.map (coverageRatio df)) ∧
    (∀ q ∈ columns.map (coverageRatio df), 0 ≤ q ∧ q ≤ 1) ∧
    calc_percent_rows_fully_covered df columns =
      .ok ((fullyCoveredCount df.data columns : ℚ) / ((numDays df : ℤ) : ℚ)) ∧
    (0 ≤ (fullyCoveredCount df.data columns : ℚ) / ((numDays df : ℤ) : ℚ) ∧
      (fullyCoveredCount df.data columns : ℚ) / ((numDays df : ℤ) : ℚ) ≤ 1) ∧
    ((∀ d ∈ Finset.Icc (dateMin (df.data.map Prod.fst))
        (dateMax (df.data.map Prod.fst)), d ∈ df.data.map Prod.fst) →
      (∀ r ∈ df.data, ∀ c ∈ columns, (r.2 c).isSome = true) →
      (∀ q ∈ columns.map (coverageRatio df), q = 1) ∧
      (fullyCoveredCount df.data columns : ℚ) / ((numDays df : ℤ) : ℚ) = 1) := by
  refine ⟨?_, ?_, ?_, ?_, ?_⟩
  · unfold calc_daily_data_coverage_percentages
    rw [if_pos hvalid]
  · intro q hq
    rw [List.mem_map] at hq
    obtain ⟨c, _hc, rfl⟩ := hq
    exact ratio_in_unit df hne hnodup (countCol df.data c)
      (List.length_filter_le _ _)
  · unfold calc_percent_rows_fully_covered
    rw [if_pos hvalid]
  · exact ratio_in_unit df hne hnodup (fullyCoveredCount df.data columns)
      (List.length_filter_le _ _)
  · intro hcomp hnonull
    have hlen : (df.data.length : ℤ) = numDays df :=
      length_eq_numDays_of_complete df hne hnodup hcomp
    constructor
    · intro q hq
      rw [List.mem_map] at hq
      obtain ⟨c, hc, rfl⟩ := hq
      have hcount : countCol df.data c = df.data.length := by
        unfold countCol
        rw [List.filter_eq_self.mpr (fun r hr => hnonull r hr c hc)]
      unfold coverageRatio
      rw [hcount]
      exact ratio_eq_one df hne df.data.length hlen
    · have hcount : fullyCoveredCount df.data columns = df.data.length := by
        unfold fullyCoveredCount
        rw [List.filter_eq_self.mpr
          (fun r hr => List.all_eq_true.mpr (fun c hc => hnonull r hr c hc))]
      rw [hcount]
      exact ratio_eq_one df hne df.data.length hlen

/-- Witness for the amended C6 on a complete, fully populated two-day frame. -/
theorem claim_C6_amended_coverage_ratios_witness :
    (goodFrame.data ≠ [] ∧ (goodFrame.data.map Prod.fst).Nodup ∧
      (["x"].all (fun c => goodFrame.cols.contains c) = true)) ∧
    (calc_daily_data_coverage_percentages goodFrame ["x"] =
        .ok (["x"].map (coverageRatio goodFrame)) ∧
      (∀ q ∈ ["x"].map (coverageRatio goodFrame), 0 ≤ q ∧ q ≤ 1) ∧
      calc_percent_rows_fully_covered goodFrame ["x"] =
        .ok ((fullyCoveredCount goodFrame.data ["x"] : ℚ) /
          ((numDays goodFrame : ℤ) : ℚ)) ∧
      (0 ≤ (fullyCoveredCount goodFrame.data ["x"] : ℚ) /
          ((numDays goodFrame : ℤ) : ℚ) ∧
        (fullyCoveredCount goodFrame.data ["x"] : ℚ) /
          ((numDays goodFrame : ℤ) : ℚ) ≤ 1) ∧
      ((∀ d ∈ Finset.Icc (dateMin (goodFrame.data.map Prod.fst))
          (dateMax (goodFrame.data.map Prod.fst)), d ∈ goodFrame.data.map Prod.fst) →
        (∀ r ∈ goodFrame.data, ∀ c ∈ ["x"], (r.2 c).isSome = true) →
        (∀ q ∈ ["x"].map (coverageRatio goodFrame), q = 1) ∧
        (fullyCoveredCount goodFrame.data ["x"] : ℚ) /
          ((numDays goodFrame : ℤ) : ℚ) = 1)) :=
  ⟨⟨List.cons_ne_nil _ _, by decide, by decide⟩,
   claim_C6_amended_coverage_ratios goodFrame ["x"]
     (List.cons_ne_nil _ _) (by decide) (by decide)⟩

/-- Mapping with `mapWithIndex` keeps the list length. -/
theorem mapWithIndex_length {α : Type} (f : Nat → α → α) (s : Nat) (l : List α) :
    (mapWithIndex f s l).length = l.length := by
  induction l generalizing s with
  | nil => rfl
  | cons a t ih => simp [mapWithIndex, ih]

/-- In-range access to a `mapWithIndex` result. -/
theorem mapWithIndex_getD {α : Type} (f : Nat → α → α) (s i : Nat) (l : List α)
    (d : α) (hi : i < l.length) :
    (mapWithIndex f s l).getD i d = f (s + i) (l.getD i d) := by
  induction l generalizing s i with
  | nil => simp at hi
  | cons a t ih =>
    cases i with
    | zero => simp [mapWithIndex]
    | succ j =>
      simp only [mapWithIndex, List.getD_cons_succ]
      rw [ih (s + 1) j (by simpa using hi)]
      congr 1
      omega

/-- A per-row edit that fixes every unmasked row preserves the length and the
unmasked rows' agreement with the original frame. -/
theorem mapWithIndex_preserves_unmasked (mask : Nat → Bool) (g : Nat → RowFn → RowFn)
    (humask : ∀ i r, mask i = false → g i r = r)
    (orig cur : List RowFn)
    (hlen : cur.length = orig.length)
    (hagree : ∀ i, mask i = false → ∀ c,
      cur.getD i emptyRow c = orig.getD i emptyRow c) :
    (mapWithIndex g 0 cur).length = orig.length ∧
    ∀ i, mask i = false → ∀ c,
      (mapWithIndex g 0 cur).getD i emptyRow c = orig.getD i emptyRow c := by
  constructor
  · rw [mapWithIndex_length]
    exact hlen
  · intro i hm c
    by_cases hi : i < cur.length
    · rw [mapWithIndex_getD _ _ _ _ _ hi, Nat.zero_add, humask i _ hm]
      exact hagree i hm c
    · push_neg at hi
      rw [List.getD_eq_default _ _ (by rw [mapWithIndex_length]; exact hi),
        List.getD_eq_default _ _ (by omega)]

/-- The directional branch also preserves unmasked rows: it restores them to
the original frame's cell in the filled column and leaves other cells. -/
theorem directionalRestore_preserves_unmasked (orig cur : List RowFn)
    (mask : Nat → Bool) (col : String) (filled : List (Option Val))
    (hlen : cur.length = orig.length)
    (hagree : ∀ i, mask i = false → ∀ c,
      cur.getD i emptyRow c = orig.getD i emptyRow c) :
    (directionalRestore orig cur mask col filled).length = orig.length ∧
    ∀ i, mask i = false → ∀ c,
      (directionalRestore orig cur mask col filled).getD i emptyRow c =
        orig.getD i emptyRow c := by
  constructor
  · unfold directionalRestore
    rw [mapWithIndex_length]
    exact hlen
  · intro i hm c
    by_cases hi : i < cur.length
    · unfold directionalRestore
      rw [mapWithIndex_getD _ _ _ _ _ hi, Nat.zero_add, if_neg (by simp [hm])]
      unfold updateCell
      by_cases hc : c = col
      · subst hc
        simp
      · simp only [if_neg hc]
        exact hagree i hm c
    · push_neg at hi
      unfold directionalRestore
      rw [List.getD_eq_default _ _ (by rw [mapWithIndex_length]; exact hi),
        List.getD_eq_default _ _ (by omega)]

/-- One plan application preserves the length and the unmasked rows. -/
theorem applyOnePlan_preserves (orig : List RowFn) (mask : Nat → Bool)
    (cur : List RowFn) (p : String × PlanObj) (next : List RowFn)
    (hlen : cur.length = orig.length)
    (hagree : ∀ i, mask i = false → ∀ c,
      cur.getD i emptyRow c = orig.getD i emptyRow c)
    (hstep : applyOnePlan orig mask cur p = .ok next) :
    next.length = orig.length ∧
    ∀ i, mask i = false → ∀ c,
      next.getD i emptyRow c = orig.getD i emptyRow c := by
  obtain ⟨col, plan⟩ := p
  cases plan with
  | callable f =>
    simp only [applyOnePlan, Except.ok.injEq] at hstep
    subst hstep
    exact mapWithIndex_preserves_unmasked mask _
      (fun i r hm => by simp [hm]) orig cur hlen hagree
  | strObj s =>
    simp only [applyOnePlan] at hstep
    split at hstep
    · split at hstep
      · simp only [Except.ok.injEq] at hstep
        subst hstep
        exact directionalRestore_preserves_unmasked orig cur mask col _ hlen hagree
      · split at hstep
        · simp only [Except.ok.injEq] at hstep
          subst hstep
          exact directionalRestore_preserves_unmasked orig cur mask col _ hlen hagree
        · exact Except.noConfusion hstep
    · simp only [Except.ok.injEq] at hstep
      subst hstep
      exact mapWithIndex_preserves_unmasked mask _
        (fun i r hm => by simp [hm]) orig cur hlen hagree
  | other v =>
    simp only [applyOnePlan, Except.ok.injEq] at hstep
    subst hstep
    exact mapWithIndex_preserves_unmasked mask _
      (fun i r hm => by simp [hm]) orig cur hlen hagree

/-- The plan fold preserves the length and the unmasked rows. -/
theorem fill_fold_preserves (orig : List RowFn) (mask : Nat → Bool)
    (plans : List (String × PlanObj)) (cur out : List RowFn)
    (hlen : cur.length = orig.length)
    (hagree : ∀ i, mask i = false → ∀ c,
      cur.getD i emptyRow c = orig.getD i emptyRow c)
    (hfold : plans.foldlM (applyOnePlan orig mask) cur = .ok out) :
    out.length = orig.length ∧
    ∀ i, mask i = false → ∀ c,
      out.getD i emptyRow c = orig.getD i emptyRow c := by
  induction plans generalizing cur with
  | nil =>
    simp only [List.foldlM_nil] at hfold
    cases hfold
    exact ⟨hlen, hagree⟩
  | cons p rest ih =>
    simp only [List.foldlM_cons] at hfold
    cases hstep : applyOnePlan orig mask cur p with
    | error e =>
      rw [hstep] at hfold
      exact Except.noConfusion hfold
    | ok next =>
      rw [hstep] at hfold
      obtain ⟨hlen2, hagree2⟩ := applyOnePlan_preserves orig mask cur p next
        hlen hagree hstep
      exact ih next hlen2 hagree2 hfold

/-- C7: whatever dataset `fill_data_frame_by_plans` returns agrees with the
input dataset on every cell of every row outside the selected rows, for every
plan list and row selection. -/
theorem claim_C7_fill_preserves_rows_outside_selection (df : DataFrame)
    (plans : List (String × PlanObj)) (mask : Nat → Bool) (out : DataFrame)
    (hout : fill_data_frame_by_plans df (some plans) mask = .ok out) :
    out.rows.length = df.rows.length ∧
    ∀ i, mask i = false → ∀ c, out.rowAt i c = df.rowAt i c := by
  simp only [fill_data_frame_by_plans] at hout
  by_cases hkeys : plans.all (fun p => df.cols.contains p.1) = true
  · rw [if_pos hkeys] at hout
    cases hfold : plans.foldlM (applyOnePlan df.rows mask) df.rows with
    | error e =>
      rw [hfold] at hout
      simp [Except.map] at hout
    | ok rs =>
      rw [hfold] at hout
      simp only [Except.map, Except.ok.injEq] at hout
      subst hout
      have := fill_fold_preserves df.rows mask plans df.rows rs rfl
        (fun _ _ _ => rfl) hfold
      exact ⟨this.1, fun i hm c => this.2 i hm c⟩
  · rw [if_neg hkeys] at hout
    simp at hout

/-- Witness for C7 on a constant fill of column `B` applied to row 0 only:
row 1 is untouched. -/
theorem claim_C7_fill_preserves_rows_outside_selection_witness :
    fill_data_frame_by_plans dfC7 (some plansC7) maskC7 = .ok outC7 ∧
    (outC7.rows.length = dfC7.rows.length ∧
      ∀ i, maskC7 i = false → ∀ c, outC7.rowAt i c = dfC7.rowAt i c) :=
  ⟨rfl, claim_C7_fill_preserves_rows_outside_selection dfC7 plansC7 maskC7 outC7 rfl⟩

end DanLab
